import Mathlib

/-!
# Verification of the Electrum `Interface` header reconciler

A shallow embedding of `src/electrum/interface.py`. The per-server
`Interface` drives a header-reconciliation state machine (`step`,
`sync_until`, `run_fetch_blocks`), a keep-alive loop (`open_session`)
and a certificate bootstrap (`run` / `save_certificate`).

Modelling conventions:

* Heights are `Nat`; the one place the Python code can produce a negative
  intermediate value (the exponential retreat `tip - 2*(tip - height)`)
  is computed over `Int` before being clamped, exactly like Python's
  signed integers.
* A `Header` is the result of `deserialize_header`: a record carrying its
  `block_height` plus an abstract identity (`tag`).  Fetched headers never
  carry the test-only `mock` sidecar (only tests inject such dicts), so the
  `if 'mock' not in header` branches of the source are embedded in their
  production (non-mock) form.
* The external `Blockchain` collaborator (`blockchain.py`, not part of the
  sources) is an oracle bundle `Env`:
  - `checkHeader c h` is the instance method `Blockchain.check_header`
    (a `bool`: does chain `c` contain `h`?);
  - `checkHeaderAny h` is the module-level `blockchain.check_header`
    (the chain containing `h`, if any);
  - `canConnectAny h` is the module-level `blockchain.can_connect`;
  - `canConnectNoHeight c h` is `c.can_connect(h, check_height=False)`;
  - `forkOf`, `forkpoint`, `parent`, `heightOf` are the corresponding
    `Blockchain` methods.  All oracles are fixed during one `step`, which is
    faithful: within one `step` every oracle query happens before the first
    chain mutation except the reorg path, which performs no mutation.
* `St` is the mutable state of one `Interface` plus the process-wide chain
  registry `blockchain.blockchains`, extended with *instrumentation logs*
  (heights fetched, headers saved, forks created, `step`/`sync_until`
  invocations, binary-search iterations).  The logs are append-only and do
  not influence control flow.
* Network loops carry explicit fuel; exhaustion is reported by a dedicated
  result constructor and is never silently conflated with normal results.
-/

/-- A deserialized block header: its height plus an abstract identity. -/
structure Header where
  block_height : Nat
  tag : Nat
deriving DecidableEq, Repr

/-- Handle of one `Blockchain` object. -/
abbrev ChainId := Nat

/-- One iteration of the binary-search loop of `Interface.step`:
the `(good, bad)` window before and after the iteration. -/
structure BinIter where
  g0 : Nat
  b0 : Nat
  g1 : Nat
  b1 : Nat
deriving DecidableEq, Repr

/-- Interface state plus the process-wide registry, with instrumentation
logs (the `fetched`, `saves`, `writes`, `forks`, `stepCalls`, `syncCalls`
and `binLog` fields record events and never influence control flow). -/
structure St where
  /-- `self.blockchain`: the chain this interface currently extends. -/
  blockchain : ChainId
  /-- `blockchain.blockchains`: forkpoint -> branch registry. -/
  registry : List (Nat × ChainId)
  /-- `self.tip`. -/
  tip : Nat
  /-- `self.tip_header`. -/
  tipHeader : Option Header
  /-- heights passed to `get_block_header`. -/
  fetched : List Nat
  /-- arguments of every `save_header` call. -/
  saves : List (ChainId × Header)
  /-- chains truncated by `write(b'', 0)`. -/
  writes : List ChainId
  /-- arguments of every `fork` call. -/
  forks : List (ChainId × Header)
  /-- heights at which `step` was invoked. -/
  stepCalls : List Nat
  /-- `sync_until` invocations: (first argument, `blockchain.height()` at the call). -/
  syncCalls : List (Nat × Nat)
  /-- binary-search iterations. -/
  binLog : List BinIter
deriving DecidableEq, Repr

/-- Oracles for the server and the external `Blockchain` collaborator. -/
structure Env where
  /-- `network.max_checkpoint()`. -/
  maxCheckpoint : Nat
  /-- the server's header at each height, as returned by `get_block_header`. -/
  serverHeader : Nat → Header
  /-- instance method `Blockchain.check_header` (bool). -/
  checkHeader : ChainId → Header → Bool
  /-- module-level `blockchain.check_header`: the chain recognising the header. -/
  checkHeaderAny : Header → Option ChainId
  /-- module-level `blockchain.can_connect`: the chain that can append the header. -/
  canConnectAny : Header → Option ChainId
  /-- instance `Blockchain.can_connect(header, check_height=False)`. -/
  canConnectNoHeight : ChainId → Header → Bool
  /-- `Blockchain.height()`. -/
  heightOf : ChainId → Nat
  /-- `Blockchain.parent()`. -/
  parent : ChainId → ChainId
  /-- `Blockchain.fork(header)`: the freshly created branch. -/
  forkOf : ChainId → Header → ChainId
  /-- `Blockchain.forkpoint`. -/
  forkpoint : ChainId → Nat
  /-- `network.request_chunk(idx, tip)`: (could_connect, num_headers). -/
  requestChunk : Nat → Nat → Bool × Nat

/-- Outcome tag returned by one reconciliation `step`. -/
inductive Outcome
  | catchup
  | join
  | conflict
  | fork
  | no_fork
deriving DecidableEq, Repr

/-- Result of `Interface.step`. -/
inductive StepRes
  | ok (o : Outcome) (height : Nat) (st : St)
  | err (msg : String) (st : St)
  | fuelOut (st : St)
deriving DecidableEq, Repr

/-- Result of the backward (exponential retreat) phase of `step`. -/
inductive BackRes
  /-- the latest fetched header can connect (`if can_connect:`). -/
  | toConnect (height : Nat) (header : Header) (c : ChainId) (st : St)
  /-- the latest fetched header is recognised: enter the binary phase. -/
  | toBinary (good : Nat) (goodHdr : Header) (chain : ChainId)
      (bad : Nat) (badHdr : Header) (st : St)
  | err (msg : String) (st : St)
  | fuelOut (st : St)
deriving DecidableEq, Repr

/-- Result of the binary narrowing loop of `step`. -/
inductive BinRes
  /-- loop left at `bad == good + 1`; `height`/`header` are the last probe. -/
  | exit (good bad height : Nat) (header badHdr : Header) (st : St)
  | err (msg : String) (st : St)
  | fuelOut (st : St)
deriving DecidableEq, Repr

/-- `get_block_header(h, ...)`: fetch the server header at `h`, logging `h`. -/
def getHeader (env : Env) (st : St) (h : Nat) : Header × St :=
  (env.serverHeader h, { st with fetched := st.fetched ++ [h] })

/-- `blockchain.blockchains.get(k)`. -/
def lookupFp : List (Nat × ChainId) → Nat → Option ChainId
  | [], _ => none
  | (k, v) :: rest, n => if k = n then some v else lookupFp rest n

/-- The `while not chain and not can_connect:` exponential-retreat loop of
`Interface.step` (interface.py lines 339-354):  `bad`/`badHdr` are the last
rejected probe, `height`/`header` the probe whose `check_header` /
`can_connect` status decides whether the loop continues. -/
def backwardLoop (env : Env) (st : St) (bad : Nat) (badHdr : Header)
    (height : Nat) (header : Header) : Nat → BackRes
  | 0 => .fuelOut st
  | fuel + 1 =>
    if (env.checkHeaderAny header).isNone ∧ (env.canConnectAny header).isNone then
      -- loop body: retreat exponentially away from the tip
      let bad := height
      let badHdr := header
      let nhInt : Int := (st.tip : Int) - 2 * ((st.tip : Int) - (height : Int))
      let clamp := decide (nhInt ≤ (env.maxCheckpoint : Int))
      let nh : Nat := if clamp then env.maxCheckpoint + 1 else nhInt.toNat
      let (hdr', st') := getHeader env st nh
      if clamp ∧ (env.canConnectAny hdr').isNone ∧ (env.checkHeaderAny hdr').isNone then
        .err "assert can_connect or chain" st'
      else
        backwardLoop env st' bad badHdr nh hdr' fuel
    else
      match env.canConnectAny header with
      | some c => .toConnect height header c st
      | none =>
        match env.checkHeaderAny header with
        | some ch => .toBinary height header ch bad badHdr st
        | none => .err "not chain" st

/-- The binary narrowing loop of `Interface.step` (lines 380-396).  Each
iteration fetches the probe at `height`, classifies it good or bad, and
either narrows further at the new midpoint or exits at `bad == good + 1`.
The source fetches the probe just before each membership test (lines 381,
395, 421); here the fetch opens the iteration, which issues the identical
sequence of fetches. -/
def binLoop (env : Env) (st : St) (good bad height : Nat) (badHdr : Header) :
    Nat → BinRes
  | 0 => .fuelOut st
  | fuel + 1 =>
    let (header, st) := getHeader env st height
    match env.checkHeaderAny header with
    | some c =>
      if bad = height then .err "assert bad != height" st
      else
        let st := { st with blockchain := c,
                            binLog := st.binLog ++ [⟨good, bad, height, bad⟩] }
        if bad ≠ height + 1 then
          binLoop env st height bad ((bad + height) / 2) badHdr fuel
        else
          .exit height bad height header badHdr st
    | none =>
      if good = height then .err "assert good != height" st
      else
        let st := { st with binLog := st.binLog ++ [⟨good, bad, good, height⟩] }
        if height ≠ good + 1 then
          binLoop env st good height ((height + good) / 2) header fuel
        else
          .exit good height height header header st

/-- The `if can_connect:` success path of `step` (lines 356-369): adopt the
connecting chain, advance the cursor and persist the header. -/
def stepConnect (_env : Env) (st : St) (height : Nat) (header : Header)
    (c : ChainId) : StepRes :=
  let st := { st with blockchain := c }
  let st := { st with saves := st.saves ++ [(c, header)] }
  .ok .catchup (height + 1) st

/-- Classification at the fork point (lines 397-455).  `height` is the last
binary probe, `badHdr` the header rejected at `bad`.  The reorg row
re-enters the binary loop at `height = bad` (the `continue` of line 421),
consuming fuel. -/
def classify (env : Env) (st : St) (good bad height : Nat)
    (header badHdr : Header) : Nat → StepRes
  | 0 => .fuelOut st
  | fuel + 1 =>
    if env.canConnectNoHeight st.blockchain badHdr = false then
      .err "unexpected bad header during binary" st
    else
      match lookupFp st.registry bad with
      | some branch =>
        if env.checkHeader branch badHdr then
          -- join: drop our tip onto the existing branch
          .ok .join (height + 1) st
        else if env.checkHeader (env.parent branch) header then
          -- reorg onto the branch's parent, re-fetch `bad`, continue binary
          let st := { st with blockchain := env.parent branch }
          match binLoop env st good bad bad badHdr fuel with
          | .exit g' b' h' hdr' bh' st' => classify env st' g' b' h' hdr' bh' fuel
          | .err m st' => .err m st'
          | .fuelOut st' => .fuelOut st'
        else
          -- conflict: truncate the branch file and overwrite with badHdr
          let st := { st with writes := st.writes ++ [branch] }
          let st := { st with saves := st.saves ++ [(branch, badHdr)] }
          let st := { st with blockchain := branch }
          .ok .conflict (bad + 1) st
      | none =>
        let bh := env.heightOf st.blockchain
        if good < bh then
          if env.checkHeader st.blockchain badHdr then
            -- fork skipped: `chain` is truthy, return with the probe height
            .ok .fork height st
          else
            let b := env.forkOf st.blockchain badHdr
            let st := { st with forks := st.forks ++ [(st.blockchain, badHdr)] }
            if (lookupFp st.registry bad).isSome then
              .err "assert bad not in blockchains" st
            else
              let st := { st with registry := st.registry ++ [(bad, b)],
                                  blockchain := b }
              if env.forkpoint b ≠ bad then
                .err "assert b.forkpoint == bad" st
              else
                .ok .fork (env.forkpoint b + 1) st
        else
          if bh ≠ good then .err "assert bh == good" st
          else if bh < st.tip then .ok .no_fork (bh + 1) st
          else .ok .no_fork height st

/-- Continuation of `step` after the binary narrowing loop. -/
def stepBinRes (env : Env) (fuel : Nat) : BinRes → StepRes
  | .exit g' b' h' hdr' bh' st' => classify env st' g' b' h' hdr' bh' fuel
  | .err m st' => .err m st'
  | .fuelOut st' => .fuelOut st'

/-- Continuation of `step` after the backward phase (lines 356-396): the
connect path, or chain adoption (line 378) followed by the binary loop. -/
def stepBackRes (env : Env) (fuel : Nat) : BackRes → StepRes
  | .toConnect h' hd' c st' => stepConnect env st' h' hd' c
  | .toBinary good _goodHdr ch bad' badHdr' st' =>
    stepBinRes env fuel
      (binLoop env { st' with blockchain := ch } good bad' ((bad' + good) / 2) badHdr' fuel)
  | .err m st' => .err m st'
  | .fuelOut st' => .fuelOut st'

/-- `Interface.step` (lines 314-455), for production (mock-free) headers. -/
def step (env : Env) (st : St) (height : Nat) (headerOpt : Option Header)
    (fuel : Nat) : StepRes :=
  let st := { st with stepCalls := st.stepCalls ++ [height] }
  if height = 0 then .err "assert height != 0" st
  else
    let (header, st) :=
      match headerOpt with
      | some hd => (hd, st)
      | none => getHeader env st height
    if env.checkHeader st.blockchain header then .ok .catchup height st
    else
      match env.canConnectAny header with
      | some c => stepConnect env st height header c
      | none =>
        -- backward phase (lines 326-355)
        let bad := height
        let badHdr := header
        let clamp := decide (height - 1 ≤ env.maxCheckpoint)
        let h1 : Nat := if clamp then env.maxCheckpoint + 1 else height - 1
        let (hdr1, st) := getHeader env st h1
        if clamp ∧ (env.canConnectAny hdr1).isNone ∧ (env.checkHeaderAny hdr1).isNone then
          .err "assert can_connect or chain" st
        else
          stepBackRes env fuel (backwardLoop env st bad badHdr h1 hdr1 fuel)

/-- Result of one `sync_until` loop iteration. -/
inductive SyncBodyRes
  | cont (last : Outcome) (height : Nat) (st : St)
  | exc (msg : String) (st : St)
  | fuelOut (st : St)
deriving DecidableEq, Repr

/-- Result of `Interface.sync_until`. -/
inductive SyncRes
  | ok (last : Outcome) (height : Nat) (st : St)
  | exc (msg : String) (st : St)
  | fuelOut (st : St)
deriving DecidableEq, Repr

/-- `self.tip = max(height, self.tip)` after a `step` inside `sync_until`. -/
def stepInSyncRes : StepRes → SyncBodyRes
  | .ok o h st => .cont o h { st with tip := max h st.tip }
  | .err m st => .exc m st
  | .fuelOut st => .fuelOut st

/-- `step` as invoked from `sync_until` (lines 302-303 and 310-311):
run one `step(height)` and raise the tip to the returned height. -/
def stepInSync (env : Env) (st : St) (height : Nat) (fuel : Nat) : SyncBodyRes :=
  stepInSyncRes (step env st height none fuel)

/-- One iteration of the `sync_until` loop (lines 295-311): a bulk chunk
request while the gap exceeds 10 headers, single `step`s otherwise. -/
def syncBody (env : Env) (st : St) (height nextHeight : Nat) (fuel : Nat) :
    SyncBodyRes :=
  if height + 10 < nextHeight then
    let res := env.requestChunk height nextHeight
    let st := { st with tip := max (height + res.2) st.tip }
    if res.1 = false then
      if height ≤ env.maxCheckpoint then
        .exc "server chain conflicts with checkpoints or genesis" st
      else
        stepInSync env st height fuel
    else
      let h' := height / 2016 * 2016 + res.2
      if nextHeight < h' then .exc "assert height <= next_height" st
      else .cont .catchup h' st
  else
    stepInSync env st height fuel

/-- The `while last is None or height < next_height:` loop of `sync_until`.
On loop exit the accumulated `last` outcome is returned (it is necessarily
set, since the condition forces at least one iteration while it is `None`).
-/
def syncLoop (env : Env) (st : St) (last : Option Outcome)
    (height nextHeight : Nat) : Nat → SyncRes
  | 0 => .fuelOut st
  | fuel + 1 =>
    if last.isNone ∨ height < nextHeight then
      match syncBody env st height nextHeight fuel with
      | .cont o h st1 => syncLoop env st1 (some o) h nextHeight fuel
      | .exc m st1 => .exc m st1
      | .fuelOut st1 => .fuelOut st1
    else
      last.elim (.exc "unreachable" st) fun o => .ok o height st

/-- `Interface.sync_until(height, next_height)` (lines 291-312); a `none`
target defaults to `self.tip`.  The invocation is logged together with
`self.blockchain.height()` at the moment of the call. -/
def sync_until (env : Env) (st : St) (height : Nat) (nextHeightOpt : Option Nat)
    (fuel : Nat) : SyncRes :=
  let nh := nextHeightOpt.getD st.tip
  let st := { st with syncCalls := st.syncCalls ++ [(height, env.heightOf st.blockchain)] }
  syncLoop env st none height nh fuel

/-- Result of the tip-follower loop (`run_fetch_blocks`). -/
inductive FollowRes
  /-- the processed items are exhausted; `height` is the tracking cursor. -/
  | next (height : Nat) (st : St)
  | exc (msg : String) (st : St)
  | fuelOut (st : St)
deriving DecidableEq, Repr

/-- The cursor clamp of `run_fetch_blocks` line 286-287:
`if self.tip < height: height = self.tip`. -/
def clampToTip (tip height : Nat) : Nat := if tip < height then tip else height

/-- `self.tip = max(height, self.tip)` after the tip-follower's `step`. -/
def followStepRes : StepRes → FollowRes
  | .ok _ h st => .next h { st with tip := max h st.tip }
  | .err m st => .exc m st
  | .fuelOut st => .fuelOut st

/-- The direct `step(height, item)` call of the tip-follower (lines 288-289),
followed by `self.tip = max(height, self.tip)`. -/
def followStepPart (env : Env) (st : St) (height : Nat) (item : Header)
    (fuel : Nat) : FollowRes :=
  followStepRes (step env st height (some item) fuel)

/-- The part of a tip-follower iteration after the optional catch-up
(lines 282-289): skip already-integrated headers, clamp the cursor to the
tip, then run one `step`. -/
def followAfterSync (env : Env) (st : St) (height : Nat) (item : Header)
    (fuel : Nat) : FollowRes :=
  if height ≤ env.heightOf st.blockchain ∧ env.checkHeader st.blockchain item then
    .next height st
  else
    followStepPart env st (clampToTip st.tip height) item fuel

/-- Continuation of a tip-follower iteration after the catch-up call. -/
def followSyncRes (env : Env) (item : Header) (fuel : Nat) : SyncRes → FollowRes
  | .ok _ h st => followAfterSync env st h item fuel
  | .exc m st => .exc m st
  | .fuelOut st => .fuelOut st

/-- One iteration of the `while True:` loop of `run_fetch_blocks`
(lines 276-289) for a received `item`. -/
def followIter (env : Env) (st : St) (height : Nat) (item : Header)
    (fuel : Nat) : FollowRes :=
  if env.heightOf st.blockchain + 1 < item.block_height then
    followSyncRes env item fuel (sync_until env st height none fuel)
  else
    followAfterSync env st height item fuel

/-- Drive the tip-follower over a finite prefix of the notification queue. -/
def followList (env : Env) (st : St) (height : Nat) :
    List Header → Nat → FollowRes
  | [], _ => .next height st
  | item :: rest, fuel =>
    match followIter env st height item fuel with
    | .next h st => followList env st h rest fuel
    | r => r

/-- `Interface.run_fetch_blocks` (lines 267-289): checkpoint guard,
initial cursor `blockchain.height() + 1`, then the follower loop over the
initial subscription header and the streamed notifications. -/
def run_fetch_blocks (env : Env) (st : St) (sub : Header)
    (items : List Header) (fuel : Nat) : FollowRes :=
  if st.tip < env.maxCheckpoint then .exc "server tip below max checkpoint" st
  else followList env st (env.heightOf st.blockchain + 1) (sub :: items) fuel

/-- The keep-alive loop's handling of a new header notification
(`open_session`, lines 254-259): `self.tip_header = new_header;
self.tip = new_header['block_height']` — a direct assignment, not a max. -/
def keepAliveIter (st : St) (newHeader : Header) : St :=
  { st with tipHeader := some newHeader, tip := newHeader.block_height }

/-- Recording the initial subscription reply (lines 232-233). -/
def initSubscription (st : St) (hdr : Header) : St :=
  { st with tipHeader := some hdr, tip := hdr.block_height }

/-- On-disk state of `cert_path`. `pemGood` parses and is inside its
validity window, `pemExpired` parses but `check_date` rejects it,
`malformed` raises `SyntaxError` in `pem.dePem`. -/
inductive CertFile
  | absent
  | empty
  | malformed
  | pemGood
  | pemExpired
deriving DecidableEq, Repr

/-- Outcome of `is_server_ca_signed` (lines 107-113). -/
inductive ProbeOutcome
  | caSigned
  | verifyFailed
  | netErr
deriving DecidableEq, Repr

/-- TLS context selected at the end of the bootstrap (lines 152-157). -/
inductive TrustCtx
  | systemCA
  | pinned
deriving DecidableEq, Repr

/-- Oracles for the certificate bootstrap: the CA probe outcome and, for
attempt `i` of `get_certificate`, whether a DER certificate was obtained
and whether it is currently within its validity window. -/
structure CertEnv where
  probe : ProbeOutcome
  getCert : Nat → Option Bool

/-- Result of the certificate phase of `Interface.run` (lines 121-157). -/
inductive CertPhaseRes
  /-- a session is opened with the final file state and chosen context. -/
  | session (f : CertFile) (ctx : TrustCtx)
  /-- `ConnectionRefusedError` / `gaierror` during the probe: record and return. -/
  | netFail (f : CertFile)
  /-- `assert False, "could not get certificate"` after 10 attempts. -/
  | exhausted (f : CertFile)
deriving DecidableEq, Repr

/-- The retry loop of `save_certificate` (lines 186-201): up to 10 calls of
`get_certificate`, keeping the first DER result. -/
def saveCertLoop (env : CertEnv) : Nat → Nat → Option Bool
  | _, 0 => none
  | i, n + 1 =>
    match env.getCert i with
    | some good => some good
    | none => saveCertLoop env (i + 1) n

/-- `Interface.save_certificate` (lines 183-203): a no-op when `cert_path`
already exists; otherwise persist the first certificate the server yields
(no validity check is performed on it). -/
def save_certificate (env : CertEnv) (f : CertFile) : Option CertFile :=
  if f = .absent then
    match saveCertLoop env 0 10 with
    | some good => some (if good then .pemGood else .pemExpired)
    | none => none
  else some f

/-- Context selection from the file size (lines 152-157): an empty file
means CA-signed (system store); otherwise the pinned certificate is the
sole trust anchor with `check_hostname` disabled. -/
def afterBootstrap (f : CertFile) : CertPhaseRes :=
  match f with
  | .empty => .session .empty .systemCA
  | g => .session g .pinned

/-- The certificate phase of `Interface.run` (lines 121-157): examine the
existing file (deleting an expired pin, treating a malformed one as absent
but leaving it on disk), bootstrap when treated as absent (a CA-signed
probe truncates the file to the empty sentinel; a verification failure
pins the server certificate), then choose the TLS context. -/
def certPhase (env : CertEnv) (f : CertFile) : CertPhaseRes :=
  let scan : CertFile × Bool :=
    match f with
    | .absent => (.absent, false)
    | .empty => (.empty, true)
    | .malformed => (.malformed, false)
    | .pemGood => (.pemGood, true)
    | .pemExpired => (.absent, false)
  let f1 := scan.1
  if scan.2 then afterBootstrap f1
  else
    match env.probe with
    | .netErr => .netFail f1
    | .caSigned => afterBootstrap .empty
    | .verifyFailed =>
      match save_certificate env f1 with
      | none => .exhausted f1
      | some f2 => afterBootstrap f2

/-- The trichotomy the specification claims for `cert_path`. -/
def trichotomy (f : CertFile) : Prop :=
  f = .absent ∨ f = .empty ∨ f = .pemGood

instance (f : CertFile) : Decidable (trichotomy f) := by
  unfold trichotomy; infer_instance

/-- State carried by a `StepRes`. -/
def StepRes.state : StepRes → St
  | .ok _ _ st => st
  | .err _ st => st
  | .fuelOut st => st

/-- State carried by a `BackRes`. -/
def BackRes.state : BackRes → St
  | .toConnect _ _ _ st => st
  | .toBinary _ _ _ _ _ st => st
  | .err _ st => st
  | .fuelOut st => st

/-- State carried by a `BinRes`. -/
def BinRes.state : BinRes → St
  | .exit _ _ _ _ _ st => st
  | .err _ st => st
  | .fuelOut st => st

/-- State carried by a `SyncBodyRes`. -/
def SyncBodyRes.state : SyncBodyRes → St
  | .cont _ _ st => st
  | .exc _ st => st
  | .fuelOut st => st

/-- State carried by a `SyncRes`. -/
def SyncRes.state : SyncRes → St
  | .ok _ _ st => st
  | .exc _ st => st
  | .fuelOut st => st

/-- State carried by a `FollowRes`. -/
def FollowRes.state : FollowRes → St
  | .next _ st => st
  | .exc _ st => st
  | .fuelOut st => st

/-- Outcome and height of a successful `StepRes`. -/
def StepRes.outcome : StepRes → Option (Outcome × Nat)
  | .ok o h _ => some (o, h)
  | _ => none

/-- Two states agreeing on the `stepCalls`, `syncCalls` and `tip` fields. -/
def SameCalls (a b : St) : Prop :=
  a.stepCalls = b.stepCalls ∧ a.syncCalls = b.syncCalls ∧ a.tip = b.tip


/-- A logged binary iteration narrows strictly whenever its window held
at least two heights. -/
def shrinks (e : BinIter) : Prop := 2 ≤ e.b0 - e.g0 → e.b1 - e.g1 < e.b0 - e.g0

instance (e : BinIter) : Decidable (shrinks e) := by unfold shrinks; infer_instance


/-- All recorded fetches and chain mutations lie strictly above height `k`. -/
def MutAbove (k : Nat) (st : St) : Prop :=
  (∀ x ∈ st.fetched, k < x) ∧
  (∀ p ∈ st.saves, k < (Prod.snd p).block_height) ∧
  (∀ p ∈ st.forks, k < (Prod.snd p).block_height)

instance (k : Nat) (st : St) : Decidable (MutAbove k st) := by
  unfold MutAbove; infer_instance


/-! ## Concrete environments for counterexamples and witnesses -/

/-- An interface state with empty logs. -/
def mkSt (bc : ChainId) (reg : List (Nat × ChainId)) (tip : Nat) : St :=
  ⟨bc, reg, tip, none, [], [], [], [], [], [], []⟩

/-- Server/blockchain oracle: chain 1 holds every server header up to height
`cut`; chain 2 is a registered branch accepting the probe item. -/
def cxE1 : Env :=
  { maxCheckpoint := 0
    serverHeader := fun h => ⟨h, 0⟩
    checkHeader := fun c h => c = 2 ∧ h = (⟨9, 100⟩ : Header)
    checkHeaderAny := fun h => if h = (⟨8, 0⟩ : Header) then some 1 else none
    canConnectAny := fun _ => none
    canConnectNoHeight := fun c h => c = 1 ∧ h = (⟨9, 100⟩ : Header)
    heightOf := fun c => if c = 1 then 20 else 14
    parent := fun _ => 0
    forkOf := fun _ _ => 0
    forkpoint := fun _ => 0
    requestChunk := fun _ _ => (true, 10) }

def cxE3 : Env :=
  { maxCheckpoint := 0
    serverHeader := fun h => ⟨h, 0⟩
    checkHeader := fun c h => c = 2 ∧ h = (⟨12, 100⟩ : Header)
    checkHeaderAny := fun h => if h = (⟨11, 0⟩ : Header) then some 1 else none
    canConnectAny := fun _ => none
    canConnectNoHeight := fun c h => c = 1 ∧ h = (⟨12, 100⟩ : Header)
    heightOf := fun c => if c = 1 then 20 else 14
    parent := fun _ => 0
    forkOf := fun _ _ => 0
    forkpoint := fun _ => 0
    requestChunk := fun _ _ => (true, 10) }

def cxE2 : Env :=
  { maxCheckpoint := 5
    serverHeader := fun h => ⟨h, 0⟩
    checkHeader := fun _ _ => false
    checkHeaderAny := fun _ => none
    canConnectAny := fun h => if h = (⟨3, 0⟩ : Header) then some 1 else none
    canConnectNoHeight := fun _ _ => false
    heightOf := fun _ => 0
    parent := fun _ => 0
    forkOf := fun _ _ => 0
    forkpoint := fun _ => 0
    requestChunk := fun _ _ => (true, 10) }

def cxE6 : Env :=
  { maxCheckpoint := 0
    serverHeader := fun h => ⟨h, 0⟩
    checkHeader := fun c h => c = 2 ∧ h = (⟨12, 100⟩ : Header)
    checkHeaderAny := fun h => if h = (⟨14, 0⟩ : Header) then some 1 else none
    canConnectAny := fun _ => none
    canConnectNoHeight := fun c h => c = 1 ∧ h = (⟨12, 100⟩ : Header)
    heightOf := fun c => if c = 1 then 20 else 14
    parent := fun _ => 0
    forkOf := fun _ _ => 0
    forkpoint := fun _ => 0
    requestChunk := fun _ _ => (true, 10) }

def cxE7 : Env :=
  { maxCheckpoint := 0
    serverHeader := fun h => ⟨h, 0⟩
    checkHeader := fun _ _ => false
    checkHeaderAny := fun h =>
      if h = (⟨4, 0⟩ : Header) ∨ h = (⟨5, 100⟩ : Header) then some 1 else none
    canConnectAny := fun _ => none
    canConnectNoHeight := fun _ _ => false
    heightOf := fun _ => 0
    parent := fun _ => 0
    forkOf := fun _ _ => 0
    forkpoint := fun _ => 0
    requestChunk := fun _ _ => (true, 10) }

/-- A server whose headers the local chain always recognises. -/
def wE2 : Env :=
  { maxCheckpoint := 2
    serverHeader := fun h => ⟨h, 0⟩
    checkHeader := fun _ _ => true
    checkHeaderAny := fun _ => none
    canConnectAny := fun _ => none
    canConnectNoHeight := fun _ _ => false
    heightOf := fun _ => 0
    parent := fun _ => 0
    forkOf := fun _ _ => 0
    forkpoint := fun _ => 0
    requestChunk := fun _ _ => (true, 10) }

/-- Chain 1 holds all server headers up to height 8. -/
def wE1 : Env :=
  { maxCheckpoint := 0
    serverHeader := fun h => ⟨h, 0⟩
    checkHeaderAny := fun h => if h.block_height ≤ 8 ∧ h.tag = 0 then some 1 else none
    checkHeader := fun _ _ => false
    canConnectAny := fun _ => none
    canConnectNoHeight := fun _ _ => true
    heightOf := fun _ => 0
    parent := fun _ => 0
    forkOf := fun _ _ => 0
    forkpoint := fun _ => 0
    requestChunk := fun _ _ => (true, 10) }

def wE3 : Env :=
  { maxCheckpoint := 0
    serverHeader := fun h => ⟨h, 0⟩
    checkHeader := fun c _ => c = 3
    checkHeaderAny := fun _ => none
    canConnectAny := fun _ => none
    canConnectNoHeight := fun _ _ => true
    heightOf := fun _ => 0
    parent := fun _ => 0
    forkOf := fun _ _ => 0
    forkpoint := fun _ => 0
    requestChunk := fun _ _ => (true, 10) }

def wE4 : Env :=
  { maxCheckpoint := 0
    serverHeader := fun h => ⟨h, 0⟩
    checkHeader := fun _ _ => false
    checkHeaderAny := fun _ => none
    canConnectAny := fun _ => none
    canConnectNoHeight := fun _ _ => true
    heightOf := fun _ => 10
    parent := fun _ => 0
    forkOf := fun _ _ => 9
    forkpoint := fun c => if c = 9 then 7 else 0
    requestChunk := fun _ _ => (true, 10) }

def wE6 : Env :=
  { maxCheckpoint := 0
    serverHeader := fun h => ⟨h, 0⟩
    checkHeader := fun _ _ => true
    checkHeaderAny := fun _ => none
    canConnectAny := fun _ => none
    canConnectNoHeight := fun _ _ => false
    heightOf := fun _ => 0
    parent := fun _ => 0
    forkOf := fun _ _ => 0
    forkpoint := fun _ => 0
    requestChunk := fun _ _ => (true, 10) }

def wE8 : Env :=
  { maxCheckpoint := 9
    serverHeader := fun h => ⟨h, 0⟩
    checkHeader := fun _ _ => true
    checkHeaderAny := fun _ => none
    canConnectAny := fun _ => none
    canConnectNoHeight := fun _ _ => false
    heightOf := fun _ => 0
    parent := fun _ => 0
    forkOf := fun _ _ => 0
    forkpoint := fun _ => 0
    requestChunk := fun _ _ => (false, 7) }

def wC9 : CertEnv := ⟨.verifyFailed, fun _ => some true⟩

def cxC9 : CertEnv := ⟨.verifyFailed, fun _ => some true⟩

def wE7 : Env :=
  { maxCheckpoint := 2
    serverHeader := fun h => ⟨h, 0⟩
    checkHeader := fun _ _ => true
    checkHeaderAny := fun _ => none
    canConnectAny := fun _ => none
    canConnectNoHeight := fun _ _ => false
    heightOf := fun _ => 0
    parent := fun _ => 0
    forkOf := fun _ _ => 0
    forkpoint := fun _ => 0
    requestChunk := fun _ _ => (true, 10) }

/-- The C4 corner scenario: the interface sits on a stale fork (chain 0)
while the server follows the main chain (chain 1, height 20), which
contains every server header up to height 20.  The per-chain and
module-level `check_header` oracles are mutually consistent. -/
def cxE4 : Env :=
  { maxCheckpoint := 0
    serverHeader := fun h => ⟨h, 0⟩
    checkHeader := fun c h => c = 1 ∧ h.block_height ≤ 20 ∧ h.tag = 0
    checkHeaderAny := fun h =>
      if h.block_height ≤ 20 ∧ h.tag = 0 then some 1 else none
    canConnectAny := fun _ => none
    canConnectNoHeight := fun c h => c = 1 ∧ h = (⟨16, 0⟩ : Header)
    heightOf := fun c => if c = 1 then 20 else 10
    parent := fun _ => 0
    forkOf := fun _ _ => 0
    forkpoint := fun _ => 0
    requestChunk := fun _ _ => (true, 10) }

def wE10 : Env :=
  { maxCheckpoint := 0
    serverHeader := fun h => ⟨h, 0⟩
    checkHeader := fun _ _ => true
    checkHeaderAny := fun _ => none
    canConnectAny := fun _ => none
    canConnectNoHeight := fun _ _ => false
    heightOf := fun _ => 0
    parent := fun _ => 0
    forkOf := fun _ _ => 0
    forkpoint := fun _ => 0
    requestChunk := fun _ _ => (true, 10) }


/-! ## Frame lemmas

The reconciler never touches `syncCalls` or `tip`, and `step` appends
exactly its own invocation to `stepCalls`. -/

theorem SameCalls.refl (a : St) : SameCalls a a := ⟨rfl, rfl, rfl⟩

theorem SameCalls.trans {a b c : St} (h1 : SameCalls a b) (h2 : SameCalls b c) :
    SameCalls a c :=
  ⟨h1.1.trans h2.1, h1.2.1.trans h2.2.1, h1.2.2.trans h2.2.2⟩

theorem backwardLoop_frame (env : Env) (st : St) (bad : Nat) (badHdr : Header)
    (height : Nat) (header : Header) (fuel : Nat) :
    SameCalls (backwardLoop env st bad badHdr height header fuel).state st := by
  induction fuel generalizing st bad badHdr height header with
  | zero => exact SameCalls.refl st
  | succ n ih =>
    rw [backwardLoop]
    split
    · simp only [getHeader]
      split <;> split
      all_goals first
        | exact ⟨rfl, rfl, rfl⟩
        | exact SameCalls.trans (ih _ _ _ _ _) ⟨rfl, rfl, rfl⟩
    · split
      · exact SameCalls.refl st
      · split
        · exact SameCalls.refl st
        · exact SameCalls.refl st

theorem binLoop_frame (env : Env) (st : St) (good bad height : Nat)
    (badHdr : Header) (fuel : Nat) :
    SameCalls (binLoop env st good bad height badHdr fuel).state st := by
  induction fuel generalizing st good bad height badHdr with
  | zero => exact SameCalls.refl st
  | succ n ih =>
    rw [binLoop]
    simp only [getHeader]
    split
    · split
      · exact ⟨rfl, rfl, rfl⟩
      · split
        · exact SameCalls.trans (ih _ _ _ _ _) ⟨rfl, rfl, rfl⟩
        · exact ⟨rfl, rfl, rfl⟩
    · split
      · exact ⟨rfl, rfl, rfl⟩
      · split
        · exact SameCalls.trans (ih _ _ _ _ _) ⟨rfl, rfl, rfl⟩
        · exact ⟨rfl, rfl, rfl⟩

theorem classify_frame (env : Env) (st : St) (good bad height : Nat)
    (header badHdr : Header) (fuel : Nat) :
    SameCalls (classify env st good bad height header badHdr fuel).state st := by
  induction fuel generalizing st good bad height header badHdr with
  | zero => exact SameCalls.refl st
  | succ n ih =>
    rw [classify]
    dsimp only
    split
    · exact SameCalls.refl st
    · split
      · rename_i branch hreg
        split
        · exact SameCalls.refl st
        · split
          · split
            · rename_i g' b' h' hdr' bh' st' heq
              have hbf := binLoop_frame env
                { st with blockchain := env.parent branch } good bad bad badHdr n
              rw [heq] at hbf
              exact SameCalls.trans (ih _ _ _ _ _ _) (SameCalls.trans hbf ⟨rfl, rfl, rfl⟩)
            · rename_i m st' heq
              have hbf := binLoop_frame env
                { st with blockchain := env.parent branch } good bad bad badHdr n
              rw [heq] at hbf
              exact SameCalls.trans hbf ⟨rfl, rfl, rfl⟩
            · rename_i st' heq
              have hbf := binLoop_frame env
                { st with blockchain := env.parent branch } good bad bad badHdr n
              rw [heq] at hbf
              exact SameCalls.trans hbf ⟨rfl, rfl, rfl⟩
          · exact ⟨rfl, rfl, rfl⟩
      · split
        · split
          · exact SameCalls.refl st
          · split
            · exact ⟨rfl, rfl, rfl⟩
            · split
              · exact ⟨rfl, rfl, rfl⟩
              · exact ⟨rfl, rfl, rfl⟩
        · split
          · exact SameCalls.refl st
          · split
            · exact SameCalls.refl st
            · exact SameCalls.refl st

theorem stepBinRes_frame (env : Env) (fuel : Nat) (r : BinRes) :
    SameCalls (stepBinRes env fuel r).state r.state := by
  cases r with
  | exit g' b' h' hdr' bh' st' => exact classify_frame env st' g' b' h' hdr' bh' fuel
  | err m st' => exact SameCalls.refl st'
  | fuelOut st' => exact SameCalls.refl st'

theorem stepBackRes_frame (env : Env) (fuel : Nat) (r : BackRes) :
    SameCalls (stepBackRes env fuel r).state r.state := by
  cases r with
  | toConnect h' hd' c st' => exact ⟨rfl, rfl, rfl⟩
  | toBinary good ghd ch bad' badHdr' st' =>
    exact SameCalls.trans
      (SameCalls.trans (stepBinRes_frame env fuel _)
        (binLoop_frame env { st' with blockchain := ch } good bad'
          ((bad' + good) / 2) badHdr' fuel))
      ⟨rfl, rfl, rfl⟩
  | err m st' => exact SameCalls.refl st'
  | fuelOut st' => exact SameCalls.refl st'

theorem step_frame (env : Env) (st : St) (height : Nat)
    (headerOpt : Option Header) (fuel : Nat) :
    (step env st height headerOpt fuel).state.stepCalls = st.stepCalls ++ [height] ∧
    (step env st height headerOpt fuel).state.syncCalls = st.syncCalls ∧
    (step env st height headerOpt fuel).state.tip = st.tip := by
  have key : SameCalls (step env st height headerOpt fuel).state
      { st with stepCalls := st.stepCalls ++ [height] } := by
    rw [step.eq_def]
    dsimp only
    split
    · exact SameCalls.refl _
    · cases headerOpt with
      | some hd =>
        dsimp only
        split
        · exact SameCalls.refl _
        · split
          · exact ⟨rfl, rfl, rfl⟩
          · dsimp only [getHeader]
            split <;> split
            all_goals first
              | exact ⟨rfl, rfl, rfl⟩
              | exact SameCalls.trans
                  (SameCalls.trans (stepBackRes_frame env fuel _)
                    (backwardLoop_frame env _ _ _ _ _ fuel)) ⟨rfl, rfl, rfl⟩
      | none =>
        dsimp only [getHeader]
        split
        · exact ⟨rfl, rfl, rfl⟩
        · split
          · exact ⟨rfl, rfl, rfl⟩
          · split <;> split
            all_goals first
              | exact ⟨rfl, rfl, rfl⟩
              | exact SameCalls.trans
                  (SameCalls.trans (stepBackRes_frame env fuel _)
                    (backwardLoop_frame env _ _ _ _ _ fuel)) ⟨rfl, rfl, rfl⟩
  exact ⟨key.1, key.2.1, key.2.2⟩

/-- C1 (amended): once `Interface.step` enters the binary phase with
`good < bad` (the loop is always entered at the midpoint, and the `good`
endpoint is recognised by `check_header`, as the backward phase guarantees),
the narrowing loop terminates within `bad - good` iterations in a state
with `bad = good + 1`, hitting neither internal assertion, and every
completed iteration whose window held at least two heights strictly
decreases `bad - good`.  The claim's unqualified "each loop iteration
strictly decreases the window" fails: when the phase is entered with
`bad = good + 1` the single final iteration re-probes the `good` endpoint
and leaves the window unchanged (see the counterexample). -/
theorem binLoop_spec (fuel : Nat) (env : Env) (st : St) (good bad : Nat)
    (badHdr : Header) (hgb : good < bad)
    (hgood : (env.checkHeaderAny (env.serverHeader good)).isSome)
    (hf : bad - good ≤ fuel) :
    ∃ g' b' h' hdr' bh' st',
      binLoop env st good bad ((bad + good) / 2) badHdr fuel =
        .exit g' b' h' hdr' bh' st' ∧
      b' = g' + 1 ∧
      ∀ e ∈ st'.binLog, e ∈ st.binLog ∨ shrinks e := by
  induction fuel generalizing st good bad badHdr with
  | zero => omega
  | succ n ih =>
    have hm_ge : good ≤ (bad + good) / 2 := by
      rw [Nat.le_div_iff_mul_le (by norm_num)]; omega
    have hm_lt : (bad + good) / 2 < bad := by
      rw [Nat.div_lt_iff_lt_mul (by norm_num)]; omega
    have hm_gt : 2 ≤ bad - good → good < (bad + good) / 2 := by
      intro h2
      have := (Nat.le_div_iff_mul_le (k := 2) (by norm_num)).mpr
        (show (good + 1) * 2 ≤ bad + good by omega)
      omega
    rw [binLoop]
    simp only [getHeader]
    rcases hc : env.checkHeaderAny (env.serverHeader ((bad + good) / 2)) with _ | c
    · -- probe not recognised: the window's bad endpoint moves to the midpoint
      dsimp only
      have hne : ¬ good = (bad + good) / 2 := by
        intro h
        have hb1 : bad = good + 1 := by omega
        rw [← h] at hc
        rw [hc] at hgood
        simp at hgood
      rw [if_neg hne]
      by_cases hb : (bad + good) / 2 ≠ good + 1
      · rw [if_pos hb]
        have hlt : good < (bad + good) / 2 := by omega
        obtain ⟨g', b', h', hdr', bh', st', heq, hb', hmem⟩ :=
          ih _ good ((bad + good) / 2) (env.serverHeader ((bad + good) / 2))
            hlt hgood (by omega)
        refine ⟨g', b', h', hdr', bh', st', heq, hb', ?_⟩
        intro e he
        rcases hmem e he with h1 | h2
        · rcases List.mem_append.mp h1 with h3 | h4
          · exact Or.inl h3
          · right
            rw [List.mem_singleton.mp h4]
            intro _; dsimp only; omega
        · exact Or.inr h2
      · rw [if_neg hb]
        push_neg at hb
        refine ⟨good, (bad + good) / 2, (bad + good) / 2, _, _, _, rfl, hb, ?_⟩
        intro e he
        rcases List.mem_append.mp he with h3 | h4
        · exact Or.inl h3
        · right
          rw [List.mem_singleton.mp h4]
          intro _; dsimp only; omega
    · -- probe recognised: the window's good endpoint moves to the midpoint
      dsimp only
      rw [if_neg (by omega : ¬ bad = (bad + good) / 2)]
      by_cases hb : bad ≠ (bad + good) / 2 + 1
      · rw [if_pos hb]
        have hlt : good < (bad + good) / 2 := by
          rcases Nat.lt_or_ge (bad - good) 2 with h2 | h2
          · omega
          · exact hm_gt h2
        obtain ⟨g', b', h', hdr', bh', st', heq, hb', hmem⟩ :=
          ih _ ((bad + good) / 2) bad badHdr hm_lt (by rw [hc]; rfl) (by omega)
        refine ⟨g', b', h', hdr', bh', st', heq, hb', ?_⟩
        intro e he
        rcases hmem e he with h1 | h2
        · rcases List.mem_append.mp h1 with h3 | h4
          · exact Or.inl h3
          · right
            rw [List.mem_singleton.mp h4]
            intro hw; dsimp only at hw ⊢
            have := hm_gt hw
            omega
        · exact Or.inr h2
      · rw [if_neg hb]
        push_neg at hb
        refine ⟨(bad + good) / 2, bad, (bad + good) / 2, _, _, _, rfl, hb, ?_⟩
        intro e he
        rcases List.mem_append.mp he with h3 | h4
        · exact Or.inl h3
        · right
          rw [List.mem_singleton.mp h4]
          intro hw; dsimp only at hw ⊢
          have := hm_gt hw
          omega

theorem MutAbove.of_eq {k : Nat} {a b : St} (h : MutAbove k a)
    (h1 : b.fetched = a.fetched) (h2 : b.saves = a.saves)
    (h3 : b.forks = a.forks) : MutAbove k b := by
  refine ⟨?_, ?_, ?_⟩
  · rw [h1]; exact h.1
  · rw [h2]; exact h.2.1
  · rw [h3]; exact h.2.2

theorem backwardLoop_mut (fuel : Nat) (env : Env) (st : St) (bad : Nat)
    (badHdr : Header) (height : Nat) (header : Header)
    (hs : ∀ n, (env.serverHeader n).block_height = n)
    (h0 : MutAbove env.maxCheckpoint st)
    (hh : env.maxCheckpoint < height)
    (hhd : header.block_height = height)
    (hb : env.maxCheckpoint < bad)
    (hbh : badHdr.block_height = bad) :
    MutAbove env.maxCheckpoint (backwardLoop env st bad badHdr height header fuel).state ∧
    (∀ h' hd' c st',
      backwardLoop env st bad badHdr height header fuel = .toConnect h' hd' c st' →
      env.maxCheckpoint < h' ∧ hd'.block_height = h') ∧
    (∀ g ghd ch b bh st',
      backwardLoop env st bad badHdr height header fuel = .toBinary g ghd ch b bh st' →
      env.maxCheckpoint < g ∧ env.maxCheckpoint < b ∧ bh.block_height = b) := by
  induction fuel generalizing st bad badHdr height header with
  | zero =>
    refine ⟨h0, ?_, ?_⟩
    · intro h' hd' c st' h
      rw [backwardLoop] at h
      exact BackRes.noConfusion h
    · intro g ghd ch b bh st' h
      rw [backwardLoop] at h
      exact BackRes.noConfusion h
  | succ n ih =>
    rw [backwardLoop]
    split
    · simp only [getHeader]
      split
      · -- retreat clamped to maxCheckpoint + 1
        split
        · refine ⟨MutAbove.of_eq ?_ rfl rfl rfl, ?_, ?_⟩
          · refine ⟨?_, h0.2.1, h0.2.2⟩
            intro x hx
            rcases List.mem_append.mp hx with h1 | h2
            · exact h0.1 x h1
            · rw [List.mem_singleton.mp h2]; omega
          · intro h' hd' c st' h; exact BackRes.noConfusion h
          · intro g ghd ch b bh st' h; exact BackRes.noConfusion h
        · refine ih _ _ _ _ _ ?_ (by omega) (hs _) hh hhd
          refine ⟨?_, h0.2.1, h0.2.2⟩
          intro x hx
          rcases List.mem_append.mp hx with h1 | h2
          · exact h0.1 x h1
          · rw [List.mem_singleton.mp h2]; omega
      · -- unclamped retreat target, strictly above the checkpoint
        rename_i hcl
        have hnh : env.maxCheckpoint <
            ((st.tip : Int) - 2 * ((st.tip : Int) - (height : Int))).toNat := by
          simp only [decide_eq_true_eq] at hcl
          omega
        split
        · refine ⟨MutAbove.of_eq ?_ rfl rfl rfl, ?_, ?_⟩
          · refine ⟨?_, h0.2.1, h0.2.2⟩
            intro x hx
            rcases List.mem_append.mp hx with h1 | h2
            · exact h0.1 x h1
            · rw [List.mem_singleton.mp h2]; exact hnh
          · intro h' hd' c st' h; exact BackRes.noConfusion h
          · intro g ghd ch b bh st' h; exact BackRes.noConfusion h
        · refine ih _ _ _ _ _ ?_ hnh (hs _) hh hhd
          refine ⟨?_, h0.2.1, h0.2.2⟩
          intro x hx
          rcases List.mem_append.mp hx with h1 | h2
          · exact h0.1 x h1
          · rw [List.mem_singleton.mp h2]; exact hnh
    · split
      · refine ⟨h0, ?_, ?_⟩
        · intro h' hd' c st' h
          cases h
          exact ⟨hh, hhd⟩
        · intro g ghd ch b bh st' h
          exact BackRes.noConfusion h
      · split
        · refine ⟨h0, ?_, ?_⟩
          · intro h' hd' c st' h
            exact BackRes.noConfusion h
          · intro g ghd ch b bh st' h
            cases h
            exact ⟨hh, hb, hbh⟩
        · refine ⟨h0, ?_, ?_⟩
          · intro h' hd' c st' h
            exact BackRes.noConfusion h
          · intro g ghd ch b bh st' h
            exact BackRes.noConfusion h

theorem midpoint_above {k a b : Nat} (ha : k < a) (hb : k < b) : k < (a + b) / 2 := by
  have := (Nat.le_div_iff_mul_le (k := 2) (by norm_num)).mpr
    (show (k + 1) * 2 ≤ a + b by omega)
  omega

theorem binLoop_mut (fuel : Nat) (env : Env) (st : St) (good bad height : Nat)
    (badHdr : Header)
    (hs : ∀ n, (env.serverHeader n).block_height = n)
    (h0 : MutAbove env.maxCheckpoint st)
    (hg : env.maxCheckpoint < good)
    (hbb : env.maxCheckpoint < bad)
    (hht : env.maxCheckpoint < height)
    (hbh : badHdr.block_height = bad) :
    MutAbove env.maxCheckpoint (binLoop env st good bad height badHdr fuel).state ∧
    (∀ g' b' h' hdr' bh' st',
      binLoop env st good bad height badHdr fuel = .exit g' b' h' hdr' bh' st' →
      env.maxCheckpoint < g' ∧ env.maxCheckpoint < b' ∧ env.maxCheckpoint < h' ∧
      bh'.block_height = b') := by
  induction fuel generalizing st good bad height badHdr with
  | zero =>
    refine ⟨h0, ?_⟩
    intro g' b' h' hdr' bh' st' h
    rw [binLoop] at h
    exact BinRes.noConfusion h
  | succ n ih =>
    have hext : MutAbove env.maxCheckpoint
        { st with fetched := st.fetched ++ [height] } := by
      refine ⟨?_, h0.2.1, h0.2.2⟩
      intro x hx
      rcases List.mem_append.mp hx with h1 | h2
      · exact h0.1 x h1
      · rw [List.mem_singleton.mp h2]; exact hht
    rw [binLoop]
    simp only [getHeader]
    split
    · split
      · refine ⟨hext, ?_⟩
        intro g' b' h' hdr' bh' st' h
        exact BinRes.noConfusion h
      · split
        · exact ih _ _ _ _ _ (MutAbove.of_eq hext rfl rfl rfl) hht hbb
            (midpoint_above hbb hht) hbh
        · refine ⟨MutAbove.of_eq hext rfl rfl rfl, ?_⟩
          intro g' b' h' hdr' bh' st' h
          cases h
          exact ⟨hht, hbb, hht, hbh⟩
    · split
      · refine ⟨hext, ?_⟩
        intro g' b' h' hdr' bh' st' h
        exact BinRes.noConfusion h
      · split
        · exact ih _ _ _ _ _ (MutAbove.of_eq hext rfl rfl rfl) hg hht
            (midpoint_above hht hg) (hs _)
        · refine ⟨MutAbove.of_eq hext rfl rfl rfl, ?_⟩
          intro g' b' h' hdr' bh' st' h
          cases h
          exact ⟨hg, hht, hht, hs _⟩

theorem classify_mut (fuel : Nat) (env : Env) (st : St) (good bad height : Nat)
    (header badHdr : Header)
    (hs : ∀ n, (env.serverHeader n).block_height = n)
    (h0 : MutAbove env.maxCheckpoint st)
    (hg : env.maxCheckpoint < good)
    (hbb : env.maxCheckpoint < bad)
    (hbh : badHdr.block_height = bad) :
    MutAbove env.maxCheckpoint
      (classify env st good bad height header badHdr fuel).state := by
  induction fuel generalizing st good bad height header badHdr with
  | zero => exact h0
  | succ n ih =>
    rw [classify]
    dsimp only
    split
    · exact h0
    · split
      · rename_i branch hreg
        split
        · exact h0
        · split
          · have hbl := binLoop_mut n env { st with blockchain := env.parent branch }
              good bad bad badHdr hs (MutAbove.of_eq h0 rfl rfl rfl) hg hbb hbb hbh
            split
            · rename_i g' b' h' hdr' bh' st' heq
              have h1 := hbl.1
              have h2 := hbl.2 g' b' h' hdr' bh' st' heq
              rw [heq] at h1
              exact ih _ _ _ _ _ _ h1 h2.1 h2.2.1 h2.2.2.2
            · rename_i m st' heq
              have h1 := hbl.1
              rw [heq] at h1
              exact h1
            · rename_i st' heq
              have h1 := hbl.1
              rw [heq] at h1
              exact h1
          · refine ⟨h0.1, ?_, h0.2.2⟩
            intro p hp
            rcases List.mem_append.mp hp with h1 | h2
            · exact h0.2.1 p h1
            · rw [List.mem_singleton.mp h2]
              simpa [hbh] using hbb
      · split
        · split
          · exact h0
          · split
            · refine ⟨h0.1, h0.2.1, ?_⟩
              intro p hp
              rcases List.mem_append.mp hp with h1 | h2
              · exact h0.2.2 p h1
              · rw [List.mem_singleton.mp h2]
                simpa [hbh] using hbb
            · split
              · refine ⟨h0.1, h0.2.1, ?_⟩
                intro p hp
                rcases List.mem_append.mp hp with h1 | h2
                · exact h0.2.2 p h1
                · rw [List.mem_singleton.mp h2]
                  simpa [hbh] using hbb
              · refine ⟨h0.1, h0.2.1, ?_⟩
                intro p hp
                rcases List.mem_append.mp hp with h1 | h2
                · exact h0.2.2 p h1
                · rw [List.mem_singleton.mp h2]
                  simpa [hbh] using hbb
        · split
          · exact h0
          · split
            · exact h0
            · exact h0

theorem stepBinRes_mut (env : Env) (fuel : Nat) (r : BinRes)
    (hs : ∀ n, (env.serverHeader n).block_height = n)
    (hmut : MutAbove env.maxCheckpoint r.state)
    (hexit : ∀ g' b' h' hdr' bh' st', r = .exit g' b' h' hdr' bh' st' →
      env.maxCheckpoint < g' ∧ env.maxCheckpoint < b' ∧ env.maxCheckpoint < h' ∧
      bh'.block_height = b') :
    MutAbove env.maxCheckpoint (stepBinRes env fuel r).state := by
  cases r with
  | exit g' b' h' hdr' bh' st' =>
    have h2 := hexit g' b' h' hdr' bh' st' rfl
    exact classify_mut fuel env st' g' b' h' hdr' bh' hs hmut h2.1 h2.2.1 h2.2.2.2
  | err m st' => exact hmut
  | fuelOut st' => exact hmut

theorem stepBackRes_mut (env : Env) (fuel : Nat) (r : BackRes)
    (hs : ∀ n, (env.serverHeader n).block_height = n)
    (hmut : MutAbove env.maxCheckpoint r.state)
    (hconn : ∀ h' hd' c st', r = .toConnect h' hd' c st' →
      env.maxCheckpoint < h' ∧ hd'.block_height = h')
    (hbin : ∀ g ghd ch b bh st', r = .toBinary g ghd ch b bh st' →
      env.maxCheckpoint < g ∧ env.maxCheckpoint < b ∧ bh.block_height = b) :
    MutAbove env.maxCheckpoint (stepBackRes env fuel r).state := by
  cases r with
  | toConnect h' hd' c st' =>
    have h2 := hconn h' hd' c st' rfl
    refine ⟨hmut.1, ?_, hmut.2.2⟩
    intro p hp
    rcases List.mem_append.mp hp with h3 | h4
    · exact hmut.2.1 p h3
    · rw [List.mem_singleton.mp h4]
      dsimp only
      omega
  | toBinary g ghd ch b bh st' =>
    have h2 := hbin g ghd ch b bh st' rfl
    have hbl := binLoop_mut fuel env { st' with blockchain := ch } g b
      ((b + g) / 2) bh hs (MutAbove.of_eq hmut rfl rfl rfl) h2.1 h2.2.1
      (midpoint_above h2.2.1 h2.1) h2.2.2
    exact stepBinRes_mut env fuel _ hs hbl.1 hbl.2
  | err m st' => exact hmut
  | fuelOut st' => exact hmut

/-- C2 (amended): for every invocation of `Interface.step` at a height
strictly above `network.max_checkpoint()` (with headers deserialized at
their wire height), every height passed to `get_block_header`, every
header persisted by `save_header` and every header passed to `fork` lies
strictly above `max_checkpoint`.  The claim's "for every invocation" is
refuted by invocations at heights at or below the checkpoint, which fetch
the entry height itself (see the counterexample). -/
theorem step_heights (env : Env) (st : St) (height : Nat)
    (headerOpt : Option Header) (fuel : Nat)
    (hs : ∀ n, (env.serverHeader n).block_height = n)
    (h0 : MutAbove env.maxCheckpoint st)
    (hh : env.maxCheckpoint < height)
    (hhd : ∀ hd, headerOpt = some hd → hd.block_height = height) :
    MutAbove env.maxCheckpoint (step env st height headerOpt fuel).state := by
  have hst1 : MutAbove env.maxCheckpoint
      { st with stepCalls := st.stepCalls ++ [height] } :=
    MutAbove.of_eq h0 rfl rfl rfl
  cases headerOpt with
  | some hd =>
    have hhd' : hd.block_height = height := hhd hd rfl
    rw [step.eq_def]
    dsimp only
    split
    · exact hst1
    · split
      · exact hst1
      · split
        · refine ⟨hst1.1, ?_, hst1.2.2⟩
          intro p hp
          rcases List.mem_append.mp hp with h3 | h4
          · exact hst1.2.1 p h3
          · rw [List.mem_singleton.mp h4]
            dsimp only
            omega
        · dsimp only [getHeader]
          split
          · -- first retreat clamped
            split
            · refine ⟨?_, hst1.2.1, hst1.2.2⟩
              intro x hx
              rcases List.mem_append.mp hx with h3 | h4
              · exact hst1.1 x h3
              · rw [List.mem_singleton.mp h4]; omega
            · have hst2 : MutAbove env.maxCheckpoint
                  { st with stepCalls := st.stepCalls ++ [height],
                            fetched := st.fetched ++ [env.maxCheckpoint + 1] } := by
                refine ⟨?_, hst1.2.1, hst1.2.2⟩
                intro x hx
                rcases List.mem_append.mp hx with h3 | h4
                · exact hst1.1 x h3
                · rw [List.mem_singleton.mp h4]; omega
              have hbw := backwardLoop_mut fuel env _ height hd
                (env.maxCheckpoint + 1) (env.serverHeader (env.maxCheckpoint + 1))
                hs hst2 (by omega) (hs _) hh hhd'
              exact stepBackRes_mut env fuel _ hs hbw.1 hbw.2.1 hbw.2.2
          · -- first retreat unclamped: height - 1 is above the checkpoint
            rename_i hcl
            simp only [decide_eq_true_eq] at hcl
            split
            · refine ⟨?_, hst1.2.1, hst1.2.2⟩
              intro x hx
              rcases List.mem_append.mp hx with h3 | h4
              · exact hst1.1 x h3
              · rw [List.mem_singleton.mp h4]; omega
            · have hst2 : MutAbove env.maxCheckpoint
                  { st with stepCalls := st.stepCalls ++ [height],
                            fetched := st.fetched ++ [height - 1] } := by
                refine ⟨?_, hst1.2.1, hst1.2.2⟩
                intro x hx
                rcases List.mem_append.mp hx with h3 | h4
                · exact hst1.1 x h3
                · rw [List.mem_singleton.mp h4]; omega
              have hbw := backwardLoop_mut fuel env _ height hd
                (height - 1) (env.serverHeader (height - 1))
                hs hst2 (by omega) (hs _) hh hhd'
              exact stepBackRes_mut env fuel _ hs hbw.1 hbw.2.1 hbw.2.2
  | none =>
    have hst1f : MutAbove env.maxCheckpoint
        { st with stepCalls := st.stepCalls ++ [height],
                  fetched := st.fetched ++ [height] } := by
      refine ⟨?_, hst1.2.1, hst1.2.2⟩
      intro x hx
      rcases List.mem_append.mp hx with h3 | h4
      · exact hst1.1 x h3
      · rw [List.mem_singleton.mp h4]; omega
    rw [step.eq_def]
    dsimp only [getHeader]
    split
    · exact hst1
    · split
      · exact hst1f
      · split
        · refine ⟨hst1f.1, ?_, hst1f.2.2⟩
          intro p hp
          rcases List.mem_append.mp hp with h3 | h4
          · exact hst1f.2.1 p h3
          · rw [List.mem_singleton.mp h4]
            dsimp only
            rw [hs height]
            omega
        · split
          · split
            · refine ⟨?_, hst1f.2.1, hst1f.2.2⟩
              intro x hx
              rcases List.mem_append.mp hx with h3 | h4
              · exact hst1f.1 x h3
              · rw [List.mem_singleton.mp h4]; omega
            · have hst2 : MutAbove env.maxCheckpoint
                  { st with stepCalls := st.stepCalls ++ [height],
                            fetched := (st.fetched ++ [height]) ++ [env.maxCheckpoint + 1] } := by
                refine ⟨?_, hst1f.2.1, hst1f.2.2⟩
                intro x hx
                rcases List.mem_append.mp hx with h3 | h4
                · exact hst1f.1 x h3
                · rw [List.mem_singleton.mp h4]; omega
              have hbw := backwardLoop_mut fuel env _ height (env.serverHeader height)
                (env.maxCheckpoint + 1) (env.serverHeader (env.maxCheckpoint + 1))
                hs hst2 (by omega) (hs _) hh (hs _)
              exact stepBackRes_mut env fuel _ hs hbw.1 hbw.2.1 hbw.2.2
          · rename_i hcl
            simp only [decide_eq_true_eq] at hcl
            split
            · refine ⟨?_, hst1f.2.1, hst1f.2.2⟩
              intro x hx
              rcases List.mem_append.mp hx with h3 | h4
              · exact hst1f.1 x h3
              · rw [List.mem_singleton.mp h4]; omega
            · have hst2 : MutAbove env.maxCheckpoint
                  { st with stepCalls := st.stepCalls ++ [height],
                            fetched := (st.fetched ++ [height]) ++ [height - 1] } := by
                refine ⟨?_, hst1f.2.1, hst1f.2.2⟩
                intro x hx
                rcases List.mem_append.mp hx with h3 | h4
                · exact hst1f.1 x h3
                · rw [List.mem_singleton.mp h4]; omega
              have hbw := backwardLoop_mut fuel env _ height (env.serverHeader height)
                (height - 1) (env.serverHeader (height - 1))
                hs hst2 (by omega) (hs _) hh (hs _)
              exact stepBackRes_mut env fuel _ hs hbw.1 hbw.2.1 hbw.2.2

/-! ## Tip monotonicity and call-log lemmas for the outer loops -/

theorem stepInSyncRes_tip (r : StepRes) :
    r.state.tip ≤ (stepInSyncRes r).state.tip := by
  cases r with
  | ok o h st => exact Nat.le_max_right _ _
  | err m st => exact Nat.le_refl _
  | fuelOut st => exact Nat.le_refl _

theorem stepInSyncRes_sync (r : StepRes) :
    (stepInSyncRes r).state.syncCalls = r.state.syncCalls := by
  cases r <;> rfl

theorem stepInSync_tip (env : Env) (st : St) (height fuel : Nat) :
    st.tip ≤ (stepInSync env st height fuel).state.tip := by
  unfold stepInSync
  have h1 := (step_frame env st height none fuel).2.2
  have h2 := stepInSyncRes_tip (step env st height none fuel)
  omega

theorem stepInSync_sync (env : Env) (st : St) (height fuel : Nat) :
    (stepInSync env st height fuel).state.syncCalls = st.syncCalls := by
  unfold stepInSync
  rw [stepInSyncRes_sync]
  exact (step_frame env st height none fuel).2.1

theorem syncBody_tip (env : Env) (st : St) (height nh fuel : Nat) :
    st.tip ≤ (syncBody env st height nh fuel).state.tip := by
  rw [syncBody]
  dsimp only
  split
  · split
    · split
      · exact Nat.le_max_right _ _
      · exact Nat.le_trans (Nat.le_max_right _ _)
          (stepInSync_tip env
            { st with tip := max (height + (env.requestChunk height nh).2) st.tip }
            height fuel)
    · split
      · exact Nat.le_max_right _ _
      · exact Nat.le_max_right _ _
  · exact stepInSync_tip env st height fuel

theorem syncBody_sync (env : Env) (st : St) (height nh fuel : Nat) :
    (syncBody env st height nh fuel).state.syncCalls = st.syncCalls := by
  rw [syncBody]
  dsimp only
  split
  · split
    · split
      · rfl
      · exact stepInSync_sync env _ height fuel
    · split
      · rfl
      · rfl
  · exact stepInSync_sync env st height fuel

theorem syncLoop_zero (env : Env) (st : St) (last : Option Outcome)
    (height nh : Nat) : syncLoop env st last height nh 0 = .fuelOut st := rfl

theorem syncLoop_succ (env : Env) (st : St) (last : Option Outcome)
    (height nh fuel : Nat) :
    syncLoop env st last height nh (fuel + 1) =
      if last.isNone ∨ height < nh then
        match syncBody env st height nh fuel with
        | .cont o h st1 => syncLoop env st1 (some o) h nh fuel
        | .exc m st1 => .exc m st1
        | .fuelOut st1 => .fuelOut st1
      else
        last.elim (.exc "unreachable" st) fun o => .ok o height st := rfl

theorem syncLoop_tip (env : Env) (st : St) (last : Option Outcome)
    (height nh fuel : Nat) :
    st.tip ≤ (syncLoop env st last height nh fuel).state.tip := by
  induction fuel generalizing st last height with
  | zero => exact Nat.le_refl _
  | succ n ih =>
    rw [syncLoop_succ]
    split
    · rcases hsb : syncBody env st height nh n with ⟨o, h, st1⟩ | ⟨m, st1⟩ | st1
      · have h1 := syncBody_tip env st height nh n
        rw [hsb] at h1
        exact Nat.le_trans h1 (ih _ _ _)
      · have h1 := syncBody_tip env st height nh n
        rw [hsb] at h1
        exact h1
      · have h1 := syncBody_tip env st height nh n
        rw [hsb] at h1
        exact h1
    · cases last with
      | some o => exact Nat.le_refl _
      | none => exact Nat.le_refl _

theorem syncLoop_sync (env : Env) (st : St) (last : Option Outcome)
    (height nh fuel : Nat) :
    (syncLoop env st last height nh fuel).state.syncCalls = st.syncCalls := by
  induction fuel generalizing st last height with
  | zero => rfl
  | succ n ih =>
    rw [syncLoop_succ]
    split
    · rcases hsb : syncBody env st height nh n with ⟨o, h, st1⟩ | ⟨m, st1⟩ | st1
      · have h1 := syncBody_sync env st height nh n
        rw [hsb] at h1
        exact (ih _ _ _).trans h1
      · have h1 := syncBody_sync env st height nh n
        rw [hsb] at h1
        exact h1
      · have h1 := syncBody_sync env st height nh n
        rw [hsb] at h1
        exact h1
    · cases last with
      | some o => rfl
      | none => rfl

theorem sync_until_tip (env : Env) (st : St) (height : Nat)
    (nhOpt : Option Nat) (fuel : Nat) :
    st.tip ≤ (sync_until env st height nhOpt fuel).state.tip := by
  unfold sync_until
  dsimp only
  exact syncLoop_tip env
    { st with syncCalls := st.syncCalls ++ [(height, env.heightOf st.blockchain)] }
    none height (nhOpt.getD st.tip) fuel

theorem sync_until_sync (env : Env) (st : St) (height : Nat)
    (nhOpt : Option Nat) (fuel : Nat) :
    (sync_until env st height nhOpt fuel).state.syncCalls =
      st.syncCalls ++ [(height, env.heightOf st.blockchain)] := by
  unfold sync_until
  dsimp only
  rw [syncLoop_sync]

theorem followStepRes_tip (r : StepRes) :
    r.state.tip ≤ (followStepRes r).state.tip := by
  cases r with
  | ok o h st => exact Nat.le_max_right _ _
  | err m st => exact Nat.le_refl _
  | fuelOut st => exact Nat.le_refl _

theorem followStepRes_sync (r : StepRes) :
    (followStepRes r).state.syncCalls = r.state.syncCalls := by
  cases r <;> rfl

theorem followStepRes_steps (r : StepRes) :
    (followStepRes r).state.stepCalls = r.state.stepCalls := by
  cases r <;> rfl

theorem followStepPart_tip (env : Env) (st : St) (height : Nat) (item : Header)
    (fuel : Nat) : st.tip ≤ (followStepPart env st height item fuel).state.tip := by
  unfold followStepPart
  have h1 := (step_frame env st height (some item) fuel).2.2
  have h2 := followStepRes_tip (step env st height (some item) fuel)
  omega

theorem followAfterSync_tip (env : Env) (st : St) (height : Nat) (item : Header)
    (fuel : Nat) : st.tip ≤ (followAfterSync env st height item fuel).state.tip := by
  unfold followAfterSync
  split
  · exact Nat.le_refl _
  · exact followStepPart_tip env st _ item fuel

theorem followAfterSync_sync (env : Env) (st : St) (height : Nat) (item : Header)
    (fuel : Nat) :
    (followAfterSync env st height item fuel).state.syncCalls = st.syncCalls := by
  unfold followAfterSync followStepPart
  split
  · rfl
  · rw [followStepRes_sync]
    exact (step_frame env st _ (some item) fuel).2.1

theorem followIter_tip (env : Env) (st : St) (height : Nat) (item : Header)
    (fuel : Nat) : st.tip ≤ (followIter env st height item fuel).state.tip := by
  unfold followIter
  split
  · rcases hsy : sync_until env st height none fuel with ⟨o, h, st1⟩ | ⟨m, st1⟩ | st1
    all_goals rw [followSyncRes]
    · have h1 := sync_until_tip env st height none fuel
      rw [hsy] at h1
      exact Nat.le_trans h1 (followAfterSync_tip env st1 h item fuel)
    · have h1 := sync_until_tip env st height none fuel
      rw [hsy] at h1
      exact h1
    · have h1 := sync_until_tip env st height none fuel
      rw [hsy] at h1
      exact h1
  · exact followAfterSync_tip env st height item fuel

theorem lookupFp_append_none (l : List (Nat × ChainId)) (k : Nat) (v : ChainId)
    (h : lookupFp l k = none) : lookupFp (l ++ [(k, v)]) k = some v := by
  induction l with
  | nil => simp [lookupFp]
  | cons p rest ih =>
    obtain ⟨a, b⟩ := p
    rw [List.cons_append, lookupFp]
    rw [lookupFp] at h
    by_cases hak : a = k
    · rw [if_pos hak] at h
      exact absurd h (by simp)
    · rw [if_neg hak] at h
      rw [if_neg hak]
      exact ih h

/-- C3 (amended): when the binary phase ends with `bad = good + 1`, the
registry holds a branch at key `bad` whose `check_header(bad_header)`
succeeds, and `self.blockchain.can_connect(bad_header, check_height=False)`
holds (the classification precondition), `step` returns
`('join', height + 1)` where `height` is the final binary probe (`good` or
`bad`), it creates no branch and performs no chain mutation: the state is
returned unchanged.  The claim's `bad + 1` return is obtained only when
the final probe was classified bad; when it was classified good, join
returns `bad` (see the counterexample). -/
theorem classify_join (env : Env) (st : St) (good bad height : Nat)
    (header badHdr : Header) (fuel : Nat) (br : ChainId)
    (_hb1 : bad = good + 1) (_hh : height = good ∨ height = bad)
    (hreg : lookupFp st.registry bad = some br)
    (hchk : env.checkHeader br badHdr = true)
    (hcc : env.canConnectNoHeight st.blockchain badHdr = true) :
    classify env st good bad height header badHdr (fuel + 1) =
      .ok .join (height + 1) st := by
  rw [classify]
  dsimp only
  rw [if_neg (by rw [hcc]; simp)]
  rw [hreg]
  dsimp only
  rw [if_pos hchk]

/-- C4 (amended): when the binary phase ends at window `(good, bad)`, no
registry entry exists at key `bad`, `blockchain.height() > good`, and the
classification precondition `can_connect(bad_header, check_height=False)`
holds, the code first consults `self.blockchain.check_header(bad_header)`
(line 441).  If it is falsy, and the external `fork` honours its contract
`fork(H).forkpoint = H.height` at `bad` (blockchain.py is not part of the
sources; the contract is modelled from the specification), then `step`
calls `blockchain.fork(bad_header)`, registers the new branch at key
`bad` (not previously registered), adopts it, and returns
`('fork', bad + 1)`; the new branch is then found in the registry at
`bad`.  If it is truthy — reachable when `bad_header` is the entry header
already contained in the chain adopted during the binary phase, since
that header's membership is never re-tested after adoption — the fork,
registration and adoption are all skipped and `step` returns
`('fork', height)` with the last binary probe height, not `bad + 1`
(see the counterexample). -/
theorem classify_fork (env : Env) (st : St) (good bad height : Nat)
    (header badHdr : Header) (fuel : Nat)
    (hreg : lookupFp st.registry bad = none)
    (hgt : good < env.heightOf st.blockchain)
    (hcc : env.canConnectNoHeight st.blockchain badHdr = true) :
    (env.checkHeader st.blockchain badHdr = false →
      env.forkpoint (env.forkOf st.blockchain badHdr) = bad →
      classify env st good bad height header badHdr (fuel + 1) =
        .ok .fork (bad + 1)
          { st with forks := st.forks ++ [(st.blockchain, badHdr)],
                    registry := st.registry ++ [(bad, env.forkOf st.blockchain badHdr)],
                    blockchain := env.forkOf st.blockchain badHdr } ∧
      lookupFp (st.registry ++ [(bad, env.forkOf st.blockchain badHdr)]) bad =
        some (env.forkOf st.blockchain badHdr)) ∧
    (env.checkHeader st.blockchain badHdr = true →
      classify env st good bad height header badHdr (fuel + 1) =
        .ok .fork height st) := by
  constructor
  · intro hchk hfp
    refine ⟨?_, lookupFp_append_none _ _ _ hreg⟩
    rw [classify]
    dsimp only
    rw [if_neg (by rw [hcc]; simp)]
    rw [hreg]
    dsimp only
    rw [if_pos hgt, if_neg (by rw [hchk]; simp)]
    rw [if_neg (by simp)]
    rw [if_neg (by rw [hfp]; simp), hfp]
  · intro hchk
    rw [classify]
    dsimp only
    rw [if_neg (by rw [hcc]; simp)]
    rw [hreg]
    dsimp only
    rw [if_pos hgt, if_pos hchk]

/-- C7 (amended): for every call `step(h, header)` with `h ≠ 0`: if
`self.blockchain.check_header(header)` is truthy — the current chain, not
"some chain" as the claim states — `step` returns `('catchup', h)` and
mutates nothing; otherwise, if the module-level `can_connect(header)`
returns a chain, `step` adopts that chain, persists the header via
`save_header`, and returns `('catchup', h + 1)`.  A header recognised by
another chain but not the current one is not a catchup
(see the counterexample). -/
theorem step_case1 (env : Env) (st : St) (height : Nat) (hdr : Header)
    (fuel : Nat) (hne : height ≠ 0) :
    (env.checkHeader st.blockchain hdr = true →
      step env st height (some hdr) fuel =
        .ok .catchup height { st with stepCalls := st.stepCalls ++ [height] }) ∧
    (env.checkHeader st.blockchain hdr = false →
      ∀ c, env.canConnectAny hdr = some c →
        step env st height (some hdr) fuel =
          .ok .catchup (height + 1)
            { st with stepCalls := st.stepCalls ++ [height],
                      blockchain := c,
                      saves := st.saves ++ [(c, hdr)] }) := by
  constructor
  · intro hchk
    rw [step.eq_def]
    dsimp only
    rw [if_neg hne, if_pos hchk]
  · intro hchk c hcan
    rw [step.eq_def]
    dsimp only
    rw [if_neg hne, if_neg (by rw [hchk]; simp), hcan]
    rfl

theorem stepInSyncRes_steps (r : StepRes) :
    (stepInSyncRes r).state.stepCalls = r.state.stepCalls := by
  cases r <;> rfl

/-- C8: in a `sync_until` iteration whose gap exceeds 10 headers, if the
chunk request starting at `h` reports connect-failure, then: when
`h ≤ max_checkpoint` the call raises the terminal exception
`'server chain conflicts with checkpoints or genesis'` and performs no
`step` for that chunk; when `h > max_checkpoint` it falls into exactly
one `step(h)`. -/
theorem syncBody_chunk_fail (env : Env) (st : St) (height nh fuel : Nat)
    (hgap : height + 10 < nh)
    (hfail : (env.requestChunk height nh).1 = false) :
    (height ≤ env.maxCheckpoint →
      syncBody env st height nh fuel =
        .exc "server chain conflicts with checkpoints or genesis"
          { st with tip := max (height + (env.requestChunk height nh).2) st.tip } ∧
      (syncBody env st height nh fuel).state.stepCalls = st.stepCalls) ∧
    (env.maxCheckpoint < height →
      (syncBody env st height nh fuel).state.stepCalls = st.stepCalls ++ [height]) := by
  constructor
  · intro hck
    have heq : syncBody env st height nh fuel =
        .exc "server chain conflicts with checkpoints or genesis"
          { st with tip := max (height + (env.requestChunk height nh).2) st.tip } := by
      rw [syncBody]
      dsimp only
      rw [if_pos hgap, if_pos hfail, if_pos hck]
    refine ⟨heq, ?_⟩
    rw [heq]
    rfl
  · intro hck
    rw [syncBody]
    dsimp only
    rw [if_pos hgap, if_pos hfail, if_neg (by omega)]
    unfold stepInSync
    rw [stepInSyncRes_steps]
    exact (step_frame env _ height none fuel).1
  
/-- C10: in every tip-follower iteration that reaches the direct
`step(height, item)` call (the skip branch is not taken), the cursor is
first clamped to the tip (`if self.tip < height: height = self.tip`), so
the `step` invocation recorded by the follower is at
`clampToTip st.tip height ≤ st.tip` at the moment of the call. -/
theorem followAfterSync_clamped (env : Env) (st : St) (height : Nat)
    (item : Header) (fuel : Nat)
    (hskip : ¬ (height ≤ env.heightOf st.blockchain ∧
                env.checkHeader st.blockchain item = true)) :
    (followAfterSync env st height item fuel).state.stepCalls =
      st.stepCalls ++ [clampToTip st.tip height] ∧
    clampToTip st.tip height ≤ st.tip := by
  constructor
  · unfold followAfterSync
    rw [if_neg hskip]
    unfold followStepPart
    rw [followStepRes_steps]
    exact (step_frame env st _ (some item) fuel).1
  · unfold clampToTip
    split <;> omega

/-- C6 (amended): in a tip-follower iteration whose received header `H`
satisfies `blockchain.height() < H.block_height - 1`, exactly one
`sync_until` call is issued, and its first argument is the follower's
tracking cursor `height` — not `blockchain.height() + 1` as the claim
states (the log records the pair (first argument, `blockchain.height()`
at the call); see the counterexample where the two differ). -/
theorem followIter_sync_cursor (env : Env) (st : St) (height : Nat)
    (item : Header) (fuel : Nat)
    (hguard : env.heightOf st.blockchain + 1 < item.block_height) :
    (followIter env st height item fuel).state.syncCalls =
      st.syncCalls ++ [(height, env.heightOf st.blockchain)] := by
  unfold followIter
  rw [if_pos hguard]
  rcases hsy : sync_until env st height none fuel with ⟨o, h, st1⟩ | ⟨m, st1⟩ | st1
  all_goals rw [followSyncRes]
  · rw [followAfterSync_sync]
    have h1 := sync_until_sync env st height none fuel
    rw [hsy] at h1
    exact h1
  · have h1 := sync_until_sync env st height none fuel
    rw [hsy] at h1
    exact h1
  · have h1 := sync_until_sync env st height none fuel
    rw [hsy] at h1
    exact h1

/-- C5 (amended): `self.tip` never decreases across `sync_until` and
across a tip-follower iteration (every update there takes `max` with the
current value).  The claim's coverage of the keep-alive loop fails: that
loop assigns the notified header's height directly, so a server
advertising a lower tip decreases `self.tip` (see the counterexample). -/
theorem tip_monotone :
    (∀ (env : Env) (st : St) (height : Nat) (nhOpt : Option Nat) (fuel : Nat),
      st.tip ≤ (sync_until env st height nhOpt fuel).state.tip) ∧
    (∀ (env : Env) (st : St) (height : Nat) (item : Header) (fuel : Nat),
      st.tip ≤ (followIter env st height item fuel).state.tip) :=
  ⟨sync_until_tip, followIter_tip⟩

theorem saveCertLoop_some (env : CertEnv) (i n : Nat) (b : Bool)
    (h : saveCertLoop env i n = some b) : ∃ j, env.getCert j = some b := by
  induction n generalizing i with
  | zero =>
    rw [saveCertLoop] at h
    exact Option.noConfusion h
  | succ n ih =>
    rw [saveCertLoop] at h
    rcases hg : env.getCert i with _ | g
    · rw [hg] at h
      exact ih (i + 1) h
    · rw [hg] at h
      refine ⟨i, ?_⟩
      rw [hg]
      exact h

/-- C9 (amended): provided the startup `cert_path` is not syntactically
malformed and every certificate obtainable during bootstrap is within its
validity window, any session opened by `run()` leaves `cert_path` absent,
empty, or holding a valid in-window PEM; and an expired or not-yet-valid
pinned certificate found at startup is deleted and re-bootstrapped
exactly as if the file were absent.  The unconditional trichotomy fails:
a syntactically malformed pre-existing file is treated as absent but left
on disk when the server is not CA-signed (see the counterexample). -/
theorem cert_trichotomy :
    (∀ (env : CertEnv) (f f' : CertFile) (ctx : TrustCtx),
      f ≠ .malformed →
      (∀ i b, env.getCert i = some b → b = true) →
      certPhase env f = .session f' ctx → trichotomy f') ∧
    (∀ env : CertEnv, certPhase env .pemExpired = certPhase env .absent) := by
  constructor
  · intro env f f' ctx hnm hgood heq
    have hsave : ∀ b, saveCertLoop env 0 10 = some b → b = true := by
      intro b hb
      obtain ⟨j, hj⟩ := saveCertLoop_some env 0 10 b hb
      exact hgood j b hj
    cases f with
    | malformed => exact absurd rfl hnm
    | empty =>
      rw [certPhase] at heq
      dsimp only [afterBootstrap] at heq
      cases heq
      exact Or.inr (Or.inl rfl)
    | pemGood =>
      rw [certPhase] at heq
      dsimp only [afterBootstrap] at heq
      cases heq
      exact Or.inr (Or.inr rfl)
    | absent =>
      rw [certPhase] at heq
      dsimp only at heq
      cases hp : env.probe with
      | netErr => rw [hp] at heq; exact CertPhaseRes.noConfusion heq
      | caSigned =>
        rw [hp] at heq
        dsimp only [afterBootstrap] at heq
        cases heq
        exact Or.inr (Or.inl rfl)
      | verifyFailed =>
        rw [hp] at heq
        dsimp only [save_certificate] at heq
        rw [if_pos rfl] at heq
        rcases hs : saveCertLoop env 0 10 with _ | good
        · rw [hs] at heq
          exact CertPhaseRes.noConfusion heq
        · rw [hs] at heq
          have : good = true := hsave good hs
          subst this
          dsimp only [afterBootstrap] at heq
          cases heq
          exact Or.inr (Or.inr rfl)
    | pemExpired =>
      rw [certPhase] at heq
      dsimp only at heq
      cases hp : env.probe with
      | netErr => rw [hp] at heq; exact CertPhaseRes.noConfusion heq
      | caSigned =>
        rw [hp] at heq
        dsimp only [afterBootstrap] at heq
        cases heq
        exact Or.inr (Or.inl rfl)
      | verifyFailed =>
        rw [hp] at heq
        dsimp only [save_certificate] at heq
        rw [if_pos rfl] at heq
        rcases hs : saveCertLoop env 0 10 with _ | good
        · rw [hs] at heq
          exact CertPhaseRes.noConfusion heq
        · rw [hs] at heq
          have : good = true := hsave good hs
          subst this
          dsimp only [afterBootstrap] at heq
          cases heq
          exact Or.inr (Or.inr rfl)
  · intro env
    rfl

/-- C1 counterexample: an execution of `step` that enters the binary
phase with `good = 8 < bad = 9` and terminates (outcome `join`), whose
single logged iteration leaves `bad - good` unchanged at 1: the claimed
strict decrease of each iteration is violated. -/
theorem c1_cex :
    (step cxE1 (mkSt 0 [(9, 2)] 30) 9 (some ⟨9, 100⟩) 5).outcome =
      some (.join, 9) ∧
    (step cxE1 (mkSt 0 [(9, 2)] 30) 9 (some ⟨9, 100⟩) 5).state.binLog =
      [⟨8, 9, 8, 9⟩] ∧
    (8 : Nat) < 9 ∧
    ¬ (∀ e ∈ (step cxE1 (mkSt 0 [(9, 2)] 30) 9 (some ⟨9, 100⟩) 5).state.binLog,
        e.b1 - e.g1 < e.b0 - e.g0) := by decide

/-- C2 counterexample: `step` invoked at height 3 with
`max_checkpoint = 5` fetches height `3 ≤ 5`; a reconciliation step does
touch heights at or below the checkpoint when entered there. -/
theorem c2_cex :
    cxE2.maxCheckpoint = 5 ∧
    (step cxE2 (mkSt 0 [] 30) 3 none 5).state.fetched = [3] ∧
    ¬ (∀ x ∈ (step cxE2 (mkSt 0 [] 30) 3 none 5).state.fetched,
        cxE2.maxCheckpoint < x) := by decide

/-- C3 counterexample: the binary phase terminates with
`good = 11, bad = 12`, the registry holds branch 2 at key 12 and
`check_header(bad_header)` succeeds, yet `step` returns `('join', 12)`,
not `('join', bad + 1) = ('join', 13)`: the final probe was classified
good, and join returns the probe height plus one. -/
theorem c3_cex :
    lookupFp (mkSt 0 [(12, 2)] 30).registry 12 = some 2 ∧
    cxE3.checkHeader 2 ⟨12, 100⟩ = true ∧
    (step cxE3 (mkSt 0 [(12, 2)] 30) 12 (some ⟨12, 100⟩) 5).state.binLog =
      [⟨11, 12, 11, 12⟩] ∧
    (step cxE3 (mkSt 0 [(12, 2)] 30) 12 (some ⟨12, 100⟩) 5).outcome =
      some (.join, 12) ∧
    (step cxE3 (mkSt 0 [(12, 2)] 30) 12 (some ⟨12, 100⟩) 5).outcome ≠
      some (.join, 12 + 1) := by decide

/-- C4 counterexample: a full `step` trace in a consistent chain database
(interface on a stale fork, server on the taller main chain 1, which
already contains the entry header at height 16).  The binary phase ends
with `good = 15, bad = 16`, the registry has no entry at key 16, and the
adopted chain's height 20 exceeds `good` — the claim's hypotheses — yet
`self.blockchain.check_header(bad_header)` is truthy (line 441), so no
`fork` is called, nothing is registered, and the returned pair is
`('fork', 15)`, not `('fork', bad + 1) = ('fork', 17)`. -/
theorem c4_cex :
    (step cxE4 (mkSt 0 [] 30) 16 (some ⟨16, 0⟩) 5).state.binLog =
      [⟨15, 16, 15, 16⟩] ∧
    lookupFp (mkSt 0 [] 30).registry 16 = none ∧
    (step cxE4 (mkSt 0 [] 30) 16 (some ⟨16, 0⟩) 5).state.blockchain = 1 ∧
    15 < cxE4.heightOf 1 ∧
    (step cxE4 (mkSt 0 [] 30) 16 (some ⟨16, 0⟩) 5).outcome =
      some (.fork, 15) ∧
    (step cxE4 (mkSt 0 [] 30) 16 (some ⟨16, 0⟩) 5).outcome ≠
      some (.fork, 16 + 1) ∧
    (step cxE4 (mkSt 0 [] 30) 16 (some ⟨16, 0⟩) 5).state.forks = [] ∧
    (step cxE4 (mkSt 0 [] 30) 16 (some ⟨16, 0⟩) 5).state.registry =
      (mkSt 0 [] 30).registry := by decide

/-- C5 counterexample: the keep-alive loop's handling of a notified
header of height 5 on a connection whose tip is 10 decreases `self.tip`
(lines 257-258 assign, they do not take a max). -/
theorem c5_cex :
    (keepAliveIter (mkSt 0 [] 10) ⟨5, 7⟩).tip < (mkSt 0 [] 10).tip := by decide

/-- C6 counterexample: a two-iteration `run_fetch_blocks` trace (a join
moves the interface onto chain 1 of height 20 while the cursor becomes
15) in which the catch-up guard fires and `sync_until` is called with
first argument 15, although `local.height() + 1 = 21` at the call. -/
theorem c6_cex :
    (run_fetch_blocks cxE6 (mkSt 0 [(15, 2)] 30) ⟨12, 100⟩ [⟨30, 101⟩] 6).state.syncCalls =
      [(15, 20)] ∧
    cxE6.heightOf 1 = 20 ∧
    (15 : Nat) ≠ 20 + 1 := by decide

/-- C7 counterexample: a header recognised by the module-level
`check_header` (chain 1) but not by `self.blockchain.check_header`: the
claim requires `('catchup', 5)`, but `step` does not return it (it enters
the backward phase instead). -/
theorem c7_cex :
    cxE7.checkHeaderAny ⟨5, 100⟩ = some 1 ∧
    (step cxE7 (mkSt 0 [] 30) 5 (some ⟨5, 100⟩) 5).outcome ≠
      some (.catchup, 5) := by decide

/-- C9 counterexample: a syntactically malformed `cert_path` at startup,
with a server that is not CA-signed, survives `run()`'s bootstrap
untouched: the file exists, is non-empty and is not a valid PEM, so the
claimed trichotomy is violated. -/
theorem c9_cex :
    certPhase cxC9 .malformed = .session .malformed .pinned ∧
    ¬ trichotomy .malformed := by decide

/-- C1 witness: the amended theorem applied at a concrete window (8, 10). -/
theorem c1_witness :
    ((8 : Nat) < 10) ∧
    (∃ g' b' h' hdr' bh' st',
      binLoop wE1 (mkSt 0 [] 30) 8 10 ((10 + 8) / 2) ⟨10, 50⟩ 2 =
        .exit g' b' h' hdr' bh' st' ∧
      b' = g' + 1 ∧
      ∀ e ∈ st'.binLog, e ∈ (mkSt 0 [] 30).binLog ∨ shrinks e) :=
  ⟨by decide,
    binLoop_spec 2 wE1 (mkSt 0 [] 30) 8 10 ⟨10, 50⟩ (by decide) (by decide)
      (by decide)⟩

/-- C2 witness: the amended theorem applied to a concrete step at height 9 over checkpoint 2. -/
theorem c2_witness :
    (∀ n, (wE2.serverHeader n).block_height = n) ∧
    MutAbove wE2.maxCheckpoint (step wE2 (mkSt 0 [] 30) 9 none 5).state :=
  ⟨fun _ => rfl,
    step_heights wE2 (mkSt 0 [] 30) 9 none 5 (fun _ => rfl) (by decide)
      (by decide) (fun hd h => Option.noConfusion h)⟩

/-- C3 witness: the amended theorem applied at a concrete registry hit. -/
theorem c3_witness :
    lookupFp (mkSt 1 [(7, 3)] 30).registry 7 = some 3 ∧
    classify wE3 (mkSt 1 [(7, 3)] 30) 6 7 7 ⟨7, 0⟩ ⟨7, 9⟩ 1 =
      .ok .join 8 (mkSt 1 [(7, 3)] 30) :=
  ⟨by decide,
    classify_join wE3 (mkSt 1 [(7, 3)] 30) 6 7 7 ⟨7, 0⟩ ⟨7, 9⟩ 0 3 (by decide)
      (Or.inr rfl) (by decide) (by decide) (by decide)⟩

/-- C4 witness: the theorem applied at a concrete forced fork. -/
theorem c4_witness :
    lookupFp (mkSt 1 [] 30).registry 7 = none ∧
    (classify wE4 (mkSt 1 [] 30) 6 7 7 ⟨7, 0⟩ ⟨7, 9⟩ 1 =
      .ok .fork 8 ⟨9, [(7, 9)], 30, none, [], [], [], [(1, ⟨7, 9⟩)], [], [], []⟩ ∧
     lookupFp ((mkSt 1 [] 30).registry ++ [(7, wE4.forkOf (mkSt 1 [] 30).blockchain ⟨7, 9⟩)]) 7 =
      some (wE4.forkOf (mkSt 1 [] 30).blockchain ⟨7, 9⟩)) :=
  ⟨by decide,
    (classify_fork wE4 (mkSt 1 [] 30) 6 7 7 ⟨7, 0⟩ ⟨7, 9⟩ 0 (by decide) (by decide)
      (by decide)).1 (by decide) (by decide)⟩

/-- C6 witness: the amended theorem applied at a concrete catch-up iteration. -/
theorem c6_witness :
    (wE6.heightOf (mkSt 0 [] 0).blockchain + 1 < (⟨2, 0⟩ : Header).block_height) ∧
    (followIter wE6 (mkSt 0 [] 0) 5 ⟨2, 0⟩ 1).state.syncCalls =
      (mkSt 0 [] 0).syncCalls ++ [(5, wE6.heightOf (mkSt 0 [] 0).blockchain)] :=
  ⟨by decide, followIter_sync_cursor wE6 (mkSt 0 [] 0) 5 ⟨2, 0⟩ 1 (by decide)⟩

/-- C7 witness: the amended theorem's first case applied concretely. -/
theorem c7_witness :
    wE7.checkHeader (mkSt 0 [] 30).blockchain ⟨4, 0⟩ = true ∧
    step wE7 (mkSt 0 [] 30) 4 (some ⟨4, 0⟩) 3 =
      .ok .catchup 4 ⟨0, [], 30, none, [], [], [], [], [4], [], []⟩ :=
  ⟨by decide, (step_case1 wE7 (mkSt 0 [] 30) 4 ⟨4, 0⟩ 3 (by decide)).1 (by decide)⟩

/-- C8 witness: the theorem's checkpoint-conflict case applied concretely. -/
theorem c8_witness :
    ((5 : Nat) + 10 < 30) ∧ (5 : Nat) ≤ wE8.maxCheckpoint ∧
    (syncBody wE8 (mkSt 0 [] 0) 5 30 2 =
      .exc "server chain conflicts with checkpoints or genesis"
        ⟨0, [], max (5 + 7) 0, none, [], [], [], [], [], [], []⟩ ∧
     (syncBody wE8 (mkSt 0 [] 0) 5 30 2).state.stepCalls = (mkSt 0 [] 0).stepCalls) :=
  ⟨by decide, by decide,
    (syncBody_chunk_fail wE8 (mkSt 0 [] 0) 5 30 2 (by decide) (by decide)).1
      (by decide)⟩

/-- C9 witness: the amended theorem applied to an absent startup file. -/
theorem c9_witness :
    certPhase wC9 .absent = .session .pemGood .pinned ∧ trichotomy .pemGood :=
  ⟨by decide,
    cert_trichotomy.1 wC9 .absent .pemGood .pinned (by decide)
      (fun i b h => by cases h; rfl) (by decide)⟩

/-- C10 witness: the theorem applied at a concrete non-skipped iteration. -/
theorem c10_witness :
    ¬ ((8 : Nat) ≤ wE10.heightOf (mkSt 0 [] 3).blockchain ∧
        wE10.checkHeader (mkSt 0 [] 3).blockchain ⟨9, 0⟩ = true) ∧
    ((followAfterSync wE10 (mkSt 0 [] 3) 8 ⟨9, 0⟩ 2).state.stepCalls =
      (mkSt 0 [] 3).stepCalls ++ [clampToTip (mkSt 0 [] 3).tip 8] ∧
     clampToTip (mkSt 0 [] 3).tip 8 ≤ (mkSt 0 [] 3).tip) :=
  ⟨by decide, followAfterSync_clamped wE10 (mkSt 0 [] 3) 8 ⟨9, 0⟩ 2 (by decide)⟩
